import Mathlib

/-!
Verification of the password-generation core (`model/password.go`) of the
Password-Generator-GO repository.  The Go code is shallowly embedded:
strings become `List Char`, the `crypto/rand` entropy source becomes an
explicit stream of draw outcomes threaded through every function, Go error
returns become an explicit result type, and Go runtime panics (nil
dereference, `rand.Int` with a non-positive bound, `make` with a negative
length) become a distinct `panic` outcome.
-/

namespace PasswordGen

/-- Result of running a piece of the Go code: a normal value, an error
carrying the `errors.New` message string, or a runtime panic. -/
inductive GenResult (α : Type) where
  | ok : α → GenResult α
  | err : String → GenResult α
  | panic : GenResult α
  deriving DecidableEq

/-- The entropy source: an infinite stream of outcomes of reads from
`crypto/rand.Reader`.  `some k` means the read succeeded and produced the
(unbounded) value `k`; `none` means the read failed.  Each call to
`rand.Int` consumes exactly one element of the stream. -/
def EntropySource : Type := ℕ → Option ℕ

/-- The stream after one draw has been consumed. -/
def nextSource (s : EntropySource) : EntropySource := fun i => s (i + 1)

/-- Outcome of one call to `rand.Int(rand.Reader, big.NewInt(n))`:
a uniformly chosen value in `[0, n)` (modelled as an arbitrary stream value
reduced mod `n`), a reader failure, or the panic `rand.Int` raises when its
bound is not positive. -/
inductive DrawOutcome where
  | val : ℕ → DrawOutcome
  | fail : DrawOutcome
  | panicked : DrawOutcome
  deriving DecidableEq

/-- One call to `rand.Int(rand.Reader, big.NewInt(n))`.  `rand.Int` panics
if `n <= 0`; otherwise it returns a value in `[0, n)` or the reader's
error. -/
def randInt (s : EntropySource) (n : ℕ) : DrawOutcome × EntropySource :=
  if n = 0 then (DrawOutcome.panicked, nextSource s)
  else
    match s 0 with
    | none => (DrawOutcome.fail, nextSource s)
    | some k => (DrawOutcome.val (k % n), nextSource s)

/-- `PasswordOptions` struct (`model/password.go`).  Go `int` fields are
modelled as `ℤ`. -/
structure PasswordOptions where
  MinLength : ℤ
  MaxLength : ℤ
  DefaultLength : ℤ
  Quantity : ℤ
  IncludeSymbols : Bool
  IncludeNumbers : Bool
  IncludeUpper : Bool
  IncludeLower : Bool
  BeginWithLetter : Bool
  NoSimilar : Bool
  NoDuplicates : Bool
  NoSequential : Bool
  Length : ℤ
  deriving DecidableEq

/-- `var similarCharacters = "iIl1Lo0O"`. -/
def similarCharacters : List Char := ("iIl1Lo0O").toList

def symbolChars : List Char := ("!@#$%^&*()-_=+[]\x7b\x7d|;:,.<>/?").toList

def numberChars : List Char := ("0123456789").toList

def upperChars : List Char := ("ABCDEFGHIJKLMNOPQRSTUVWXYZ").toList

def lowerChars : List Char := ("abcdefghijklmnopqrstuvwxyz").toList

/-- Sentinel character `' '` used by the Go code in
`generateNonSequentialChars`, and as the (never reached) default of guarded
index accesses. -/
def blank : Char := ' '

/-- Error message of `secureRandomChar` (`errors.New("failed to generate
secure random character")`). -/
def entropyFailureMessage : String := "failed to generate secure random character"

/-- Error message of `generatePassword` when the pool is empty
(`errors.New("at least one character type must be selected")`). -/
def invalidConfigMessage : String := "at least one character type must be selected"

/-- `buildCharacterSet`: concatenation of the enabled class alphabets in
the fixed order symbols, numbers, uppercase, lowercase. -/
def buildCharacterSet (opts : PasswordOptions) : List Char :=
  (if opts.IncludeSymbols then symbolChars else []) ++
  (if opts.IncludeNumbers then numberChars else []) ++
  (if opts.IncludeUpper then upperChars else []) ++
  (if opts.IncludeLower then lowerChars else [])

/-- `secureRandomChar`: draws `rand.Int(rand.Reader, big.NewInt(len(chars)))`
and indexes into `chars`.  On a reader error it returns
`errors.New("failed to generate secure random character")`; with an empty
`chars` the call `rand.Int(_, 0)` panics. -/
def secureRandomChar (chars : List Char) (s : EntropySource) :
    GenResult Char × EntropySource :=
  match randInt s chars.length with
  | (DrawOutcome.val k, s') => (GenResult.ok (chars.getD k blank), s')
  | (DrawOutcome.fail, s') => (GenResult.err entropyFailureMessage, s')
  | (DrawOutcome.panicked, s') => (GenResult.panic, s')

/-- `getRandomLetter`: samples from the enabled letter classes only. -/
def getRandomLetter (opts : PasswordOptions) (s : EntropySource) :
    GenResult Char × EntropySource :=
  secureRandomChar
    ((if opts.IncludeUpper then upperChars else []) ++
     (if opts.IncludeLower then lowerChars else [])) s

/-- The fixed alphanumeric alphabet `charSets` of `getRandomRune`:
uppercase ++ lowercase ++ digits. -/
def charSets : List Char :=
  ("ABCDEFGHIJKLMNOPQRSTUVWXYZabcdefghijklmnopqrstuvwxyz0123456789").toList

/-- `getRandomRune`: draws an index with `rand.Int` but discards the error
with a blank identifier (`index, _ := rand.Int(...)`).  On a reader failure
`index` is nil and `index.Int64()` panics, so a failed draw yields `none`
(mapped to a panic by the caller) rather than an error value. -/
def getRandomRune (s : EntropySource) : Option Char × EntropySource :=
  match randInt s charSets.length with
  | (DrawOutcome.val k, s') => (some (charSets.getD k blank), s')
  | (DrawOutcome.fail, s') => (none, s')
  | (DrawOutcome.panicked, s') => (none, s')

/-- `isSequential a b c`: Go `(b == a+1 && c == b+1) || (b == a-1 && c == b-1)`
on rune ordinals.  The descending case is written with `+ 1` on the other
side, which agrees with Go's rune arithmetic on non-negative code points. -/
def isSequential (a b c : Char) : Bool :=
  (b.toNat == a.toNat + 1 && c.toNat == b.toNat + 1) ||
  (b.toNat + 1 == a.toNat && c.toNat + 1 == b.toNat)

/-- The rejection test inside the loop of `generateNonSequentialChars`:
`(index > 0 && isSequential(runes[index-1], randomChar, ' ')) ||
 (index+3 < len(runes) && isSequential(randomChar, runes[index+3], ' '))`.
Both rune accesses are guarded by the boolean before them, so the `getD`
defaults are never reached. -/
def replacementRejected (runes : List Char) (index : ℕ) (c : Char) : Bool :=
  (decide (0 < index) && isSequential (runes.getD (index - 1) blank) c blank) ||
  (decide (index + 3 < runes.length) && isSequential c (runes.getD (index + 3) blank) blank)

/-- Go's `x, err := call(); if err != nil { return err }` propagation
pattern: continue with the value on success, return the error (or unwind
the panic) unchanged otherwise. -/
def onOk {α β : Type} (r : GenResult α × EntropySource)
    (f : α → EntropySource → GenResult β × EntropySource) :
    GenResult β × EntropySource :=
  match r with
  | (GenResult.ok a, s) => f a s
  | (GenResult.err e, s) => (GenResult.err e, s)
  | (GenResult.panic, s) => (GenResult.panic, s)

/-- The `for len(replacementRunes) < 3` loop of `generateNonSequentialChars`,
with an explicit fuel parameter for the (unbounded) Go loop; the fuel-0 case
is unreachable for fuel at least 3 because the rejection test never fires on
a character drawn from `charSets` (proved below).  A failed draw makes
`getRandomRune` panic. -/
def gnscAux (runes : List Char) (index : ℕ) :
    ℕ → List Char → EntropySource → GenResult (List Char) × EntropySource
  | 0, acc, s =>
    if acc.length < 3 then (GenResult.panic, s) else (GenResult.ok acc, s)
  | fuel + 1, acc, s =>
    if acc.length < 3 then
      match getRandomRune s with
      | (some c, s') =>
        if replacementRejected runes index c then gnscAux runes index fuel acc s'
        else gnscAux runes index fuel (acc ++ [c]) s'
      | (none, s') => (GenResult.panic, s')
    else (GenResult.ok acc, s)

/-- `generateNonSequentialChars runes index`: three fresh draws from
`charSets`.  Fuel 3 is exact: the loop body never takes the `continue`
branch (theorem `gnscAux_fuel_stable` below shows any larger fuel gives the
same result). -/
def generateNonSequentialChars (runes : List Char) (index : ℕ)
    (s : EntropySource) : GenResult (List Char) × EntropySource :=
  gnscAux runes index 3 [] s

/-- The scanning loop of `removeSequentialCharacters`, recursing on the
suffix `runes.drop i`; `i` is the absolute index passed to
`generateNonSequentialChars`.  A detected run `(a,b,c)` is replaced by three
fresh characters and the scan skips past it (`i += 2` plus the loop
increment); otherwise the character is copied and the scan advances by
one.  Fewer than three remaining characters are copied verbatim. -/
def removeSeqAux (runes : List Char) :
    ℕ → List Char → EntropySource → GenResult (List Char) × EntropySource
  | i, a :: b :: c :: rest, s =>
    if isSequential a b c then
      onOk (generateNonSequentialChars runes i s) (fun repl s' =>
        onOk (removeSeqAux runes (i + 3) rest s') (fun out s'' =>
          (GenResult.ok (repl ++ out), s'')))
    else
      onOk (removeSeqAux runes (i + 1) (b :: c :: rest) s) (fun out s' =>
        (GenResult.ok (a :: out), s'))
  | _, [], s => (GenResult.ok [], s)
  | _, [a], s => (GenResult.ok [a], s)
  | _, [a, b], s => (GenResult.ok [a, b], s)

/-- `removeSequentialCharacters`: scan the whole candidate from index 0.
The neighbor lookups inside the repair loop read the original rune slice. -/
def removeSequentialCharacters (password : List Char) (s : EntropySource) :
    GenResult (List Char) × EntropySource :=
  removeSeqAux password 0 password s

/-- `removeSimilarCharacters`: `strings.ReplaceAll(password, string(char), "")`
for each rune of `similarCharacters` in order. -/
def removeSimilarCharacters (password : List Char) : List Char :=
  similarCharacters.foldl (fun p c => p.filter (fun x => x != c)) password

/-- The scan of `removeDuplicateCharacters`, keeping the first occurrence of
each character; `seen` is the set of characters already written. -/
def dupAux : List Char → List Char → List Char
  | [], _ => []
  | c :: cs, seen =>
    if seen.contains c then dupAux cs seen else c :: dupAux cs (c :: seen)

/-- `removeDuplicateCharacters`. -/
def removeDuplicateCharacters (password : List Char) : List Char :=
  dupAux password []

/-- The assembly loop of `generatePassword`: `n` characters remain to be
drawn and `i` is the current position; position 0 with `BeginWithLetter`
uses `getRandomLetter`, every other position uses `secureRandomChar` on the
full pool.  A draw error aborts immediately. -/
def genCharsAux (opts : PasswordOptions) (chars : List Char) :
    ℕ → ℕ → EntropySource → GenResult (List Char) × EntropySource
  | 0, _, s => (GenResult.ok [], s)
  | n + 1, i, s =>
    onOk (if i == 0 && opts.BeginWithLetter then getRandomLetter opts s
          else secureRandomChar chars s) (fun c s' =>
      onOk (genCharsAux opts chars n (i + 1) s') (fun cs s'' =>
        (GenResult.ok (c :: cs), s'')))

/-- `generatePassword`: build the pool, fail if it is empty, assemble
`Length` characters, then post-process with the three optional stages in
the fixed order similar, duplicates, sequential.  `make([]byte, Length)`
panics when `Length` is negative. -/
def generatePassword (opts : PasswordOptions) (s : EntropySource) :
    GenResult (List Char) × EntropySource :=
  let chars := buildCharacterSet opts
  if chars = [] then (GenResult.err invalidConfigMessage, s)
  else if opts.Length < 0 then (GenResult.panic, s)
  else
    onOk (genCharsAux opts chars opts.Length.toNat 0 s) (fun pw s' =>
      let pw1 := if opts.NoSimilar then removeSimilarCharacters pw else pw
      let pw2 := if opts.NoDuplicates then removeDuplicateCharacters pw1 else pw1
      if opts.NoSequential then removeSequentialCharacters pw2 s'
      else (GenResult.ok pw2, s'))

/-- The `for i := 0; i < opts.Quantity; i++` loop of `GeneratePasswords`:
`q` iterations remain.  The first failing generation aborts the batch with
`nil, err`. -/
def genManyAux (opts : PasswordOptions) :
    ℕ → EntropySource → GenResult (List (List Char)) × EntropySource
  | 0, s => (GenResult.ok [], s)
  | q + 1, s =>
    onOk (generatePassword opts s) (fun pw s' =>
      onOk (genManyAux opts q s') (fun pws s'' =>
        (GenResult.ok (pw :: pws), s'')))

/-- `GeneratePasswords` (the spec's `generateMany`): `Quantity` independent
single-password generations. -/
def GeneratePasswords (opts : PasswordOptions) (s : EntropySource) :
    GenResult (List (List Char)) × EntropySource :=
  genManyAux opts opts.Quantity.toNat s

/-! ### The sentinel rejection test of the repair loop never fires -/

lemma charSets_length : charSets.length = 62 := by decide

lemma charSets_toNat_ne :
    ∀ c ∈ charSets, c.toNat ≠ 30 ∧ c.toNat ≠ 31 ∧ c.toNat ≠ 33 ∧ c.toNat ≠ 34 := by
  decide

lemma charSets_getD_mem : ∀ n, n < 62 → charSets.getD n blank ∈ charSets := by
  decide

/-- With the sentinel `' '` in third position, `isSequential _ c ' '` can
only hold when `c` has ordinal 31 or 33. -/
lemma isSequential_blank_last (a c : Char) (h31 : c.toNat ≠ 31)
    (h33 : c.toNat ≠ 33) : isSequential a c blank = false := by
  rw [Bool.eq_false_iff]
  intro h
  simp only [isSequential, blank, Bool.or_eq_true, Bool.and_eq_true, beq_iff_eq] at h
  have hb : Char.toNat ' ' = 32 := rfl
  rw [hb] at h
  rcases h with ⟨h1, h2⟩ | ⟨h1, h2⟩ <;> omega

/-- With the sentinel `' '` in third position, `isSequential c _ ' '` can
only hold when `c` has ordinal 30 or 34. -/
lemma isSequential_blank_first (c b : Char) (h30 : c.toNat ≠ 30)
    (h34 : c.toNat ≠ 34) : isSequential c b blank = false := by
  rw [Bool.eq_false_iff]
  intro h
  simp only [isSequential, blank, Bool.or_eq_true, Bool.and_eq_true, beq_iff_eq] at h
  have hb : Char.toNat ' ' = 32 := rfl
  rw [hb] at h
  rcases h with ⟨h1, h2⟩ | ⟨h1, h2⟩ <;> omega

/-- The neighbor-rejection test of `generateNonSequentialChars` is false
for every character of the alphabet it draws from: no alphanumeric
character has ordinal 30, 31, 33 or 34, which the sentinel comparison
against `' '` (ordinal 32) would require. -/
lemma replacementRejected_false (runes : List Char) (index : ℕ) (c : Char)
    (hc : c ∈ charSets) : replacementRejected runes index c = false := by
  obtain ⟨h30, h31, h33, h34⟩ := charSets_toNat_ne c hc
  rw [replacementRejected,
      isSequential_blank_last (runes.getD (index - 1) blank) c h31 h33,
      isSequential_blank_first c (runes.getD (index + 3) blank) h30 h34]
  simp

/-! ### Reduction lemmas for the propagation combinator -/

lemma onOk_ok {α β : Type} (a : α) (s : EntropySource)
    (f : α → EntropySource → GenResult β × EntropySource) :
    onOk (GenResult.ok a, s) f = f a s := rfl

lemma onOk_err {α β : Type} (e : String) (s : EntropySource)
    (f : α → EntropySource → GenResult β × EntropySource) :
    onOk (GenResult.err e, s) f = (GenResult.err e, s) := rfl

lemma onOk_panic {α β : Type} (s : EntropySource)
    (f : α → EntropySource → GenResult β × EntropySource) :
    onOk (GenResult.panic, s) f = (GenResult.panic, s) := rfl

/-! ### Stepping lemmas for the repair loop -/

lemma getRandomRune_none (s : EntropySource) (h : s 0 = none) :
    getRandomRune s = (none, nextSource s) := by
  rw [getRandomRune, randInt, charSets_length]
  simp [h]

lemma getRandomRune_some (s : EntropySource) (k : ℕ) (h : s 0 = some k) :
    getRandomRune s = (some (charSets.getD (k % 62) blank), nextSource s) := by
  rw [getRandomRune, randInt, charSets_length]
  simp [h]

lemma gnscAux_stop (runes : List Char) (index fuel : ℕ) (acc : List Char)
    (s : EntropySource) (hl : ¬ acc.length < 3) :
    gnscAux runes index fuel acc s = (GenResult.ok acc, s) := by
  cases fuel <;> rw [gnscAux, if_neg hl]

lemma gnscAux_zero (runes : List Char) (index : ℕ) (acc : List Char)
    (s : EntropySource) (hl : acc.length < 3) :
    gnscAux runes index 0 acc s = (GenResult.panic, s) := by
  rw [gnscAux, if_pos hl]

lemma gnscAux_fail (runes : List Char) (index fuel : ℕ) (acc : List Char)
    (s : EntropySource) (hl : acc.length < 3) (h : s 0 = none) :
    gnscAux runes index (fuel + 1) acc s = (GenResult.panic, nextSource s) := by
  rw [gnscAux, if_pos hl, getRandomRune_none s h]

lemma gnscAux_cons (runes : List Char) (index fuel : ℕ) (acc : List Char)
    (s : EntropySource) (c : Char) (s' : EntropySource) (hl : acc.length < 3)
    (hg : getRandomRune s = (some c, s'))
    (hrej : replacementRejected runes index c = false) :
    gnscAux runes index (fuel + 1) acc s =
      gnscAux runes index fuel (acc ++ [c]) s' := by
  rw [gnscAux, if_pos hl, hg]
  show (if replacementRejected runes index c = true then
          gnscAux runes index fuel acc s'
        else gnscAux runes index fuel (acc ++ [c]) s') = _
  rw [hrej, if_neg (by decide)]

lemma gnscAux_step (runes : List Char) (index fuel : ℕ) (acc : List Char)
    (s : EntropySource) (k : ℕ) (hl : acc.length < 3) (h : s 0 = some k) :
    gnscAux runes index (fuel + 1) acc s =
      gnscAux runes index fuel (acc ++ [charSets.getD (k % 62) blank])
        (nextSource s) := by
  have hmem : charSets.getD (k % 62) blank ∈ charSets :=
    charSets_getD_mem (k % 62) (Nat.mod_lt _ (by omega))
  exact gnscAux_cons runes index fuel acc s _ _ hl (getRandomRune_some s k h)
    (replacementRejected_false runes index _ hmem)

/-- A successful replacement always holds exactly 3 characters. -/
lemma gnscAux_ok_length (runes : List Char) (index : ℕ) :
    ∀ (fuel : ℕ) (acc : List Char) (s : EntropySource), acc.length ≤ 3 →
      ∀ (cs : List Char) (s' : EntropySource),
        gnscAux runes index fuel acc s = (GenResult.ok cs, s') → cs.length = 3 := by
  intro fuel
  induction fuel with
  | zero =>
    intro acc s hacc cs s' h
    by_cases hl : acc.length < 3
    · rw [gnscAux_zero runes index acc s hl] at h
      simp at h
    · rw [gnscAux_stop runes index 0 acc s hl] at h
      simp only [Prod.mk.injEq, GenResult.ok.injEq] at h
      rw [← h.1]
      omega
  | succ n ih =>
    intro acc s hacc cs s' h
    by_cases hl : acc.length < 3
    · cases hs0 : s 0 with
      | none =>
        rw [gnscAux_fail runes index n acc s hl hs0] at h
        simp at h
      | some k =>
        rw [gnscAux_step runes index n acc s k hl hs0] at h
        exact ih _ _ (by simp; omega) cs s' h
    · rw [gnscAux_stop runes index (n + 1) acc s hl] at h
      simp only [Prod.mk.injEq, GenResult.ok.injEq] at h
      rw [← h.1]
      omega

/-- The repair loop never produces a Go error value: its failure mode is a
panic (the loop discards the entropy error). -/
lemma gnscAux_ne_err (runes : List Char) (index : ℕ) :
    ∀ (fuel : ℕ) (acc : List Char) (s : EntropySource) (e : String),
      (gnscAux runes index fuel acc s).1 ≠ GenResult.err e := by
  intro fuel
  induction fuel with
  | zero =>
    intro acc s e
    by_cases hl : acc.length < 3
    · rw [gnscAux_zero runes index acc s hl]
      simp
    · rw [gnscAux_stop runes index 0 acc s hl]
      simp
  | succ n ih =>
    intro acc s e
    by_cases hl : acc.length < 3
    · cases hs0 : s 0 with
      | none =>
        rw [gnscAux_fail runes index n acc s hl hs0]
        simp
      | some k =>
        rw [gnscAux_step runes index n acc s k hl hs0]
        exact ih _ _ e
    · rw [gnscAux_stop runes index (n + 1) acc s hl]
      simp

/-- Termination of the repair loop: whenever the next `3 - acc.length`
draws succeed, any fuel of at least that many iterations yields a
successful replacement of exactly 3 characters.  The loop never needs to
discard a draw. -/
lemma gnscAux_ok_of_draws (runes : List Char) (index : ℕ) :
    ∀ (fuel : ℕ) (acc : List Char) (s : EntropySource),
      3 - acc.length ≤ fuel → acc.length ≤ 3 →
      (∀ i, i < 3 - acc.length → (s i).isSome) →
      ∃ (cs : List Char) (s' : EntropySource),
        gnscAux runes index fuel acc s = (GenResult.ok cs, s') ∧ cs.length = 3 := by
  intro fuel
  induction fuel with
  | zero =>
    intro acc s hfuel hacc _
    have h3 : ¬ acc.length < 3 := by omega
    exact ⟨acc, s, gnscAux_stop runes index 0 acc s h3, by omega⟩
  | succ n ih =>
    intro acc s hfuel hacc hdraws
    by_cases hl : acc.length < 3
    · have h0 : (s 0).isSome := hdraws 0 (by omega)
      obtain ⟨k, hk⟩ := Option.isSome_iff_exists.mp h0
      rw [gnscAux_step runes index n acc s k hl hk]
      apply ih
      · simp
        omega
      · simp
        omega
      · intro i hi
        simp only [List.length_append, List.length_cons, List.length_nil] at hi
        exact hdraws (i + 1) (by omega)
    · exact ⟨acc, s, gnscAux_stop runes index (n + 1) acc s hl, by omega⟩

/-- Increasing the fuel beyond what the loop needs does not change the
result: the bounded model of the `for` loop is exact. -/
lemma gnscAux_fuel_stable (runes : List Char) (index : ℕ) :
    ∀ (fuel : ℕ) (acc : List Char) (s : EntropySource),
      3 - acc.length ≤ fuel →
      gnscAux runes index (fuel + 1) acc s = gnscAux runes index fuel acc s := by
  intro fuel
  induction fuel with
  | zero =>
    intro acc s hfuel
    have h3 : ¬ acc.length < 3 := by omega
    rw [gnscAux_stop runes index 1 acc s h3, gnscAux_stop runes index 0 acc s h3]
  | succ n ih =>
    intro acc s hfuel
    by_cases hl : acc.length < 3
    · cases hs0 : s 0 with
      | none =>
        rw [gnscAux_fail runes index (n + 1) acc s hl hs0,
            gnscAux_fail runes index n acc s hl hs0]
      | some k =>
        rw [gnscAux_step runes index (n + 1) acc s k hl hs0,
            gnscAux_step runes index n acc s k hl hs0]
        apply ih
        simp
        omega
    · rw [gnscAux_stop runes index (n + 2) acc s hl,
          gnscAux_stop runes index (n + 1) acc s hl]

/-- Any fuel of at least 3 computes exactly `generateNonSequentialChars`. -/
lemma gnscAux_eq_generateNonSequentialChars (runes : List Char) (index : ℕ)
    (s : EntropySource) :
    ∀ (fuel : ℕ), 3 ≤ fuel →
      gnscAux runes index fuel [] s = generateNonSequentialChars runes index s := by
  intro fuel hfuel
  induction fuel, hfuel using Nat.le_induction with
  | base => rfl
  | succ m hm ih =>
    rw [← ih]
    exact gnscAux_fuel_stable runes index m [] s (by simpa using hm)

/-- A successful call to `generateNonSequentialChars` returns exactly 3
characters. -/
lemma generateNonSequentialChars_ok_length (runes : List Char) (index : ℕ)
    (s : EntropySource) (cs : List Char) (s' : EntropySource)
    (h : generateNonSequentialChars runes index s = (GenResult.ok cs, s')) :
    cs.length = 3 :=
  gnscAux_ok_length runes index 3 [] s (by simp) cs s' h

lemma generateNonSequentialChars_ne_err (runes : List Char) (index : ℕ)
    (s : EntropySource) (e : String) :
    (generateNonSequentialChars runes index s).1 ≠ GenResult.err e :=
  gnscAux_ne_err runes index 3 [] s e

/-- The scan of `removeSequentialCharacters` preserves length: every
detected run of three is replaced by exactly three fresh characters, and
all other characters are copied. -/
lemma removeSeqAux_ok_length (runes : List Char) :
    ∀ (suffix : List Char) (i : ℕ) (s : EntropySource) (out : List Char)
      (s' : EntropySource),
      removeSeqAux runes i suffix s = (GenResult.ok out, s') →
      out.length = suffix.length
  | [], i, s, out, s', h => by
    simp only [removeSeqAux, Prod.mk.injEq, GenResult.ok.injEq] at h
    rw [← h.1]
  | [a], i, s, out, s', h => by
    simp only [removeSeqAux, Prod.mk.injEq, GenResult.ok.injEq] at h
    rw [← h.1]
  | [a, b], i, s, out, s', h => by
    simp only [removeSeqAux, Prod.mk.injEq, GenResult.ok.injEq] at h
    rw [← h.1]
  | a :: b :: c :: rest, i, s, out, s', h => by
    rw [removeSeqAux] at h
    by_cases hseq : isSequential a b c = true
    · rw [if_pos hseq] at h
      rcases hg : generateNonSequentialChars runes i s with ⟨r1, s1⟩
      rw [hg] at h
      cases r1 with
      | ok repl =>
        rw [onOk_ok] at h
        rcases hr : removeSeqAux runes (i + 3) rest s1 with ⟨r2, s2⟩
        rw [hr] at h
        cases r2 with
        | ok out2 =>
          rw [onOk_ok] at h
          simp only [Prod.mk.injEq, GenResult.ok.injEq] at h
          have hrepl : repl.length = 3 :=
            generateNonSequentialChars_ok_length runes i s repl s1 hg
          have hrest : out2.length = rest.length :=
            removeSeqAux_ok_length runes rest (i + 3) s1 out2 s2 hr
          rw [← h.1]
          simp only [List.length_append, List.length_cons, hrepl, hrest]
          omega
        | err e => rw [onOk_err] at h; simp at h
        | panic => rw [onOk_panic] at h; simp at h
      | err e => rw [onOk_err] at h; simp at h
      | panic => rw [onOk_panic] at h; simp at h
    · rw [if_neg hseq] at h
      rcases hr : removeSeqAux runes (i + 1) (b :: c :: rest) s with ⟨r2, s2⟩
      rw [hr] at h
      cases r2 with
      | ok out2 =>
        rw [onOk_ok] at h
        simp only [Prod.mk.injEq, GenResult.ok.injEq] at h
        have hrest : out2.length = (b :: c :: rest).length :=
          removeSeqAux_ok_length runes (b :: c :: rest) (i + 1) s out2 s2 hr
        rw [← h.1]
        simp only [List.length_cons] at hrest ⊢
        omega
      | err e => rw [onOk_err] at h; simp at h
      | panic => rw [onOk_panic] at h; simp at h

/-- The sequential-removal stage never produces a Go error value. -/
lemma removeSeqAux_ne_err (runes : List Char) :
    ∀ (suffix : List Char) (i : ℕ) (s : EntropySource) (e : String),
      (removeSeqAux runes i suffix s).1 ≠ GenResult.err e
  | [], i, s, e => by simp [removeSeqAux]
  | [a], i, s, e => by simp [removeSeqAux]
  | [a, b], i, s, e => by simp [removeSeqAux]
  | a :: b :: c :: rest, i, s, e => by
    rw [removeSeqAux]
    by_cases hseq : isSequential a b c = true
    · rw [if_pos hseq]
      rcases hg : generateNonSequentialChars runes i s with ⟨r1, s1⟩
      cases r1 with
      | ok repl =>
        rw [onOk_ok]
        rcases hr : removeSeqAux runes (i + 3) rest s1 with ⟨r2, s2⟩
        cases r2 with
        | ok out2 => rw [onOk_ok]; simp
        | err e2 =>
          rw [onOk_err]
          intro hcontra
          apply removeSeqAux_ne_err runes rest (i + 3) s1 e
          rw [hr]
          simp only [GenResult.err.injEq] at hcontra
          rw [hcontra]
        | panic => rw [onOk_panic]; simp
      | err e2 =>
        rw [onOk_err]
        intro hcontra
        apply generateNonSequentialChars_ne_err runes i s e
        rw [hg]
        simp only [GenResult.err.injEq] at hcontra
        rw [hcontra]
      | panic => rw [onOk_panic]; simp
    · rw [if_neg hseq]
      rcases hr : removeSeqAux runes (i + 1) (b :: c :: rest) s with ⟨r2, s2⟩
      cases r2 with
      | ok out2 => rw [onOk_ok]; simp
      | err e2 =>
        rw [onOk_err]
        intro hcontra
        apply removeSeqAux_ne_err runes (b :: c :: rest) (i + 1) s e
        rw [hr]
        simp only [GenResult.err.injEq] at hcontra
        rw [hcontra]
      | panic => rw [onOk_panic]; simp

/-! ### Similar-character removal -/

/-- Folding deletion filters over a list of banned characters keeps exactly
the characters that are in the original and banned by none. -/
lemma foldl_filter_mem (cs : List Char) :
    ∀ (p : List Char) (c : Char),
      (c ∈ cs.foldl (fun p x => p.filter (fun y => y != x)) p ↔
        c ∈ p ∧ ∀ x ∈ cs, c ≠ x) := by
  induction cs with
  | nil =>
    intro p c
    simp
  | cons x cs ih =>
    intro p c
    rw [List.foldl_cons, ih]
    simp only [List.mem_filter, bne_iff_ne, ne_eq, List.mem_cons]
    constructor
    · rintro ⟨⟨hp, hx⟩, hall⟩
      exact ⟨hp, fun y hy => hy.elim (fun h => h ▸ hx) (hall y)⟩
    · rintro ⟨hp, hall⟩
      exact ⟨⟨hp, hall x (Or.inl rfl)⟩, fun y hy => hall y (Or.inr hy)⟩

/-- Membership after `removeSimilarCharacters`: a character survives iff it
was present and is not similar. -/
lemma removeSimilarCharacters_mem (pw : List Char) (c : Char) :
    c ∈ removeSimilarCharacters pw ↔ c ∈ pw ∧ ∀ x ∈ similarCharacters, c ≠ x := by
  rw [removeSimilarCharacters]
  exact foldl_filter_mem similarCharacters pw c

/-! ### Duplicate removal -/

lemma dupAux_subset :
    ∀ (l seen : List Char) (c : Char), c ∈ dupAux l seen → c ∈ l
  | [], _, c, h => by simp [dupAux] at h
  | x :: xs, seen, c, h => by
    rw [dupAux] at h
    by_cases hx : seen.contains x = true
    · rw [if_pos hx] at h
      exact List.mem_cons_of_mem x (dupAux_subset xs seen c h)
    · rw [if_neg hx] at h
      rcases List.mem_cons.mp h with rfl | h2
      · exact List.mem_cons_self _ _
      · exact List.mem_cons_of_mem x (dupAux_subset xs (x :: seen) c h2)

lemma dupAux_not_mem_seen :
    ∀ (l seen : List Char) (c : Char), c ∈ dupAux l seen → c ∉ seen
  | [], _, c, h => by simp [dupAux] at h
  | x :: xs, seen, c, h => by
    rw [dupAux] at h
    by_cases hx : seen.contains x = true
    · rw [if_pos hx] at h
      exact dupAux_not_mem_seen xs seen c h
    · rw [if_neg hx] at h
      rcases List.mem_cons.mp h with rfl | h2
      · exact fun hmem => hx (List.elem_iff.mpr hmem)
      · have h3 := dupAux_not_mem_seen xs (x :: seen) c h2
        exact fun hmem => h3 (List.mem_cons_of_mem x hmem)

lemma dupAux_nodup : ∀ (l seen : List Char), (dupAux l seen).Nodup
  | [], _ => by simp [dupAux]
  | x :: xs, seen => by
    rw [dupAux]
    by_cases hx : seen.contains x = true
    · rw [if_pos hx]
      exact dupAux_nodup xs seen
    · rw [if_neg hx]
      refine List.Nodup.cons ?_ (dupAux_nodup xs (x :: seen))
      intro hmem
      exact dupAux_not_mem_seen xs (x :: seen) x hmem (List.mem_cons_self _ _)

/-- `removeDuplicateCharacters` output has no repeated character. -/
lemma removeDuplicateCharacters_nodup (pw : List Char) :
    (removeDuplicateCharacters pw).Nodup :=
  dupAux_nodup pw []

lemma removeDuplicateCharacters_subset (pw : List Char) (c : Char)
    (h : c ∈ removeDuplicateCharacters pw) : c ∈ pw :=
  dupAux_subset pw [] c h

/-! ### The secure sampler -/

/-- A successful draw of `secureRandomChar` is a member of the pool it was
given. -/
lemma secureRandomChar_ok_mem (chars : List Char) (s : EntropySource)
    (c : Char) (s' : EntropySource)
    (h : secureRandomChar chars s = (GenResult.ok c, s')) : c ∈ chars := by
  rw [secureRandomChar, randInt] at h
  by_cases hn : chars.length = 0
  · rw [if_pos hn] at h
    simp at h
  · rw [if_neg hn] at h
    cases hs0 : s 0 with
    | none =>
      rw [hs0] at h
      simp at h
    | some k =>
      rw [hs0] at h
      simp only [Prod.mk.injEq, GenResult.ok.injEq] at h
      rw [← h.1]
      have hlt : k % chars.length < chars.length :=
        Nat.mod_lt _ (Nat.pos_of_ne_zero hn)
      rw [List.getD_eq_getElem chars blank hlt]
      exact List.getElem_mem hlt

/-- The only error `secureRandomChar` can produce carries the entropy
failure message. -/
lemma secureRandomChar_err_msg (chars : List Char) (s : EntropySource)
    (e : String) (s' : EntropySource)
    (h : secureRandomChar chars s = (GenResult.err e, s')) :
    e = entropyFailureMessage := by
  rw [secureRandomChar, randInt] at h
  by_cases hn : chars.length = 0
  · rw [if_pos hn] at h
    simp at h
  · rw [if_neg hn] at h
    cases hs0 : s 0 with
    | none =>
      rw [hs0] at h
      simp only [Prod.mk.injEq, GenResult.err.injEq] at h
      exact h.1.symm
    | some k =>
      rw [hs0] at h
      simp at h

/-! ### The assembly loop -/

/-- A successful assembly has exactly the requested number of characters,
each drawn from the pool or (for the optional leading letter) from the
enabled letter classes. -/
lemma genCharsAux_ok (opts : PasswordOptions) (chars : List Char) :
    ∀ (n i : ℕ) (s : EntropySource) (cs : List Char) (s' : EntropySource),
      genCharsAux opts chars n i s = (GenResult.ok cs, s') →
      cs.length = n ∧
        ∀ c ∈ cs, c ∈ chars ∨
          c ∈ ((if opts.IncludeUpper then upperChars else []) ++
               (if opts.IncludeLower then lowerChars else [])) := by
  intro n
  induction n with
  | zero =>
    intro i s cs s' h
    rw [genCharsAux] at h
    simp only [Prod.mk.injEq, GenResult.ok.injEq] at h
    rw [← h.1]
    simp
  | succ n ih =>
    intro i s cs s' h
    rw [genCharsAux] at h
    rcases hd : (if i == 0 && opts.BeginWithLetter then getRandomLetter opts s
                 else secureRandomChar chars s) with ⟨r1, s1⟩
    rw [hd] at h
    cases r1 with
    | ok c =>
      rw [onOk_ok] at h
      rcases hrec : genCharsAux opts chars n (i + 1) s1 with ⟨r2, s2⟩
      rw [hrec] at h
      cases r2 with
      | ok cs2 =>
        rw [onOk_ok] at h
        simp only [Prod.mk.injEq, GenResult.ok.injEq] at h
        obtain ⟨hlen, hmem⟩ := ih (i + 1) s1 cs2 s2 hrec
        constructor
        · rw [← h.1]
          simp [hlen]
        · intro x hx
          rw [← h.1] at hx
          rcases List.mem_cons.mp hx with rfl | hx2
          · by_cases hbegin : (i == 0 && opts.BeginWithLetter) = true
            · rw [if_pos hbegin, getRandomLetter] at hd
              exact Or.inr (secureRandomChar_ok_mem _ s x s1 hd)
            · rw [if_neg hbegin] at hd
              exact Or.inl (secureRandomChar_ok_mem chars s x s1 hd)
          · exact hmem x hx2
      | err e => rw [onOk_err] at h; simp at h
      | panic => rw [onOk_panic] at h; simp at h
    | err e => rw [onOk_err] at h; simp at h
    | panic => rw [onOk_panic] at h; simp at h

/-- Every error escaping the assembly loop is the entropy failure. -/
lemma genCharsAux_err (opts : PasswordOptions) (chars : List Char) :
    ∀ (n i : ℕ) (s : EntropySource) (e : String) (s' : EntropySource),
      genCharsAux opts chars n i s = (GenResult.err e, s') →
      e = entropyFailureMessage := by
  intro n
  induction n with
  | zero =>
    intro i s e s' h
    rw [genCharsAux] at h
    simp at h
  | succ n ih =>
    intro i s e s' h
    rw [genCharsAux] at h
    rcases hd : (if i == 0 && opts.BeginWithLetter then getRandomLetter opts s
                 else secureRandomChar chars s) with ⟨r1, s1⟩
    rw [hd] at h
    cases r1 with
    | ok c =>
      rw [onOk_ok] at h
      rcases hrec : genCharsAux opts chars n (i + 1) s1 with ⟨r2, s2⟩
      rw [hrec] at h
      cases r2 with
      | ok cs2 => rw [onOk_ok] at h; simp at h
      | err e2 =>
        rw [onOk_err] at h
        simp only [Prod.mk.injEq, GenResult.err.injEq] at h
        rw [← h.1]
        exact ih (i + 1) s1 e2 s2 hrec
      | panic => rw [onOk_panic] at h; simp at h
    | err e1 =>
      rw [onOk_err] at h
      simp only [Prod.mk.injEq, GenResult.err.injEq] at h
      rw [← h.1]
      by_cases hbegin : (i == 0 && opts.BeginWithLetter) = true
      · rw [if_pos hbegin, getRandomLetter] at hd
        exact secureRandomChar_err_msg _ s e1 s1 hd
      · rw [if_neg hbegin] at hd
        exact secureRandomChar_err_msg chars s e1 s1 hd
    | panic => rw [onOk_panic] at h; simp at h

/-! ### The batch loop -/

/-- A successful batch holds exactly `q` passwords, each produced by a
successful single-password generation. -/
lemma genManyAux_ok (opts : PasswordOptions) :
    ∀ (q : ℕ) (s : EntropySource) (pws : List (List Char)) (s' : EntropySource),
      genManyAux opts q s = (GenResult.ok pws, s') →
      pws.length = q ∧
        ∀ pw ∈ pws, ∃ t t', generatePassword opts t = (GenResult.ok pw, t') := by
  intro q
  induction q with
  | zero =>
    intro s pws s' h
    rw [genManyAux] at h
    simp only [Prod.mk.injEq, GenResult.ok.injEq] at h
    rw [← h.1]
    simp
  | succ q ih =>
    intro s pws s' h
    rw [genManyAux] at h
    rcases hp : generatePassword opts s with ⟨r1, s1⟩
    rw [hp] at h
    cases r1 with
    | ok pw =>
      rw [onOk_ok] at h
      rcases hrec : genManyAux opts q s1 with ⟨r2, s2⟩
      rw [hrec] at h
      cases r2 with
      | ok pws2 =>
        rw [onOk_ok] at h
        simp only [Prod.mk.injEq, GenResult.ok.injEq] at h
        obtain ⟨hlen, hmem⟩ := ih s1 pws2 s2 hrec
        constructor
        · rw [← h.1]
          simp [hlen]
        · intro x hx
          rw [← h.1] at hx
          rcases List.mem_cons.mp hx with rfl | hx2
          · exact ⟨s, s1, hp⟩
          · exact hmem x hx2
      | err e => rw [onOk_err] at h; simp at h
      | panic => rw [onOk_panic] at h; simp at h
    | err e => rw [onOk_err] at h; simp at h
    | panic => rw [onOk_panic] at h; simp at h

/-- A batch error is the error of some single-password generation,
propagated unchanged. -/
lemma genManyAux_err (opts : PasswordOptions) :
    ∀ (q : ℕ) (s : EntropySource) (e : String) (s' : EntropySource),
      genManyAux opts q s = (GenResult.err e, s') →
      ∃ t t', generatePassword opts t = (GenResult.err e, t') := by
  intro q
  induction q with
  | zero =>
    intro s e s' h
    rw [genManyAux] at h
    simp at h
  | succ q ih =>
    intro s e s' h
    rw [genManyAux] at h
    rcases hp : generatePassword opts s with ⟨r1, s1⟩
    rw [hp] at h
    cases r1 with
    | ok pw =>
      rw [onOk_ok] at h
      rcases hrec : genManyAux opts q s1 with ⟨r2, s2⟩
      rw [hrec] at h
      cases r2 with
      | ok pws2 => rw [onOk_ok] at h; simp at h
      | err e2 =>
        rw [onOk_err] at h
        simp only [Prod.mk.injEq, GenResult.err.injEq] at h
        rw [← h.1]
        exact ih s1 e2 s2 hrec
      | panic => rw [onOk_panic] at h; simp at h
    | err e1 =>
      rw [onOk_err] at h
      simp only [Prod.mk.injEq, GenResult.err.injEq] at h
      rw [← h.1]
      exact ⟨s, s1, hp⟩
    | panic => rw [onOk_panic] at h; simp at h

/-! ### The character pool -/

lemma symbolChars_ne_nil : symbolChars ≠ [] := by decide

lemma numberChars_ne_nil : numberChars ≠ [] := by decide

lemma upperChars_ne_nil : upperChars ≠ [] := by decide

lemma lowerChars_ne_nil : lowerChars ≠ [] := by decide

/-- The pool is empty exactly when all four inclusion flags are off. -/
lemma buildCharacterSet_eq_nil_iff (opts : PasswordOptions) :
    buildCharacterSet opts = [] ↔
      opts.IncludeSymbols = false ∧ opts.IncludeNumbers = false ∧
      opts.IncludeUpper = false ∧ opts.IncludeLower = false := by
  rw [buildCharacterSet]
  cases hS : opts.IncludeSymbols <;> cases hN : opts.IncludeNumbers <;>
    cases hU : opts.IncludeUpper <;> cases hL : opts.IncludeLower <;>
    simp [symbolChars_ne_nil, numberChars_ne_nil, upperChars_ne_nil,
      lowerChars_ne_nil]

/-- The letter pool used for a forced leading letter is contained in the
full pool. -/
lemma letters_subset (opts : PasswordOptions) (c : Char)
    (h : c ∈ (if opts.IncludeUpper then upperChars else []) ++
           (if opts.IncludeLower then lowerChars else [])) :
    c ∈ buildCharacterSet opts := by
  rw [buildCharacterSet]
  rcases List.mem_append.mp h with h1 | h1
  · by_cases hu : opts.IncludeUpper = true
    · rw [if_pos hu] at h1
      simp [hu, h1]
    · rw [if_neg hu] at h1
      simp at h1
  · by_cases hl : opts.IncludeLower = true
    · rw [if_pos hl] at h1
      simp [hl, h1]
    · rw [if_neg hl] at h1
      simp at h1

/-! ### Decomposition of a successful single-password generation -/

/-- Any successful `generatePassword` run decomposes into a successful
assembly of `Length.toNat` raw characters followed by the three optional
post-processing stages in their fixed order. -/
lemma generatePassword_ok_shape (opts : PasswordOptions) (s : EntropySource)
    (pw : List Char) (h : (generatePassword opts s).1 = GenResult.ok pw) :
    ∃ raw s1,
      genCharsAux opts (buildCharacterSet opts) opts.Length.toNat 0 s =
        (GenResult.ok raw, s1) ∧
      ¬ opts.Length < 0 ∧
      ((opts.NoSequential = false ∧
        pw = (if opts.NoDuplicates then
                removeDuplicateCharacters
                  (if opts.NoSimilar then removeSimilarCharacters raw else raw)
              else
                (if opts.NoSimilar then removeSimilarCharacters raw else raw))) ∨
       (opts.NoSequential = true ∧
        (removeSequentialCharacters
          (if opts.NoDuplicates then
             removeDuplicateCharacters
               (if opts.NoSimilar then removeSimilarCharacters raw else raw)
           else
             (if opts.NoSimilar then removeSimilarCharacters raw else raw))
          s1).1 = GenResult.ok pw)) := by
  simp only [generatePassword] at h
  by_cases hchars : buildCharacterSet opts = []
  · rw [if_pos hchars] at h
    simp at h
  · rw [if_neg hchars] at h
    by_cases hneg : opts.Length < 0
    · rw [if_pos hneg] at h
      simp at h
    · rw [if_neg hneg] at h
      rcases hgen : genCharsAux opts (buildCharacterSet opts) opts.Length.toNat 0 s
        with ⟨r1, s1⟩
      rw [hgen] at h
      cases r1 with
      | ok raw =>
        simp only [onOk_ok] at h
        refine ⟨raw, s1, rfl, hneg, ?_⟩
        by_cases hseq : opts.NoSequential = true
        · rw [if_pos hseq] at h
          exact Or.inr ⟨hseq, h⟩
        · rw [if_neg hseq] at h
          simp only [GenResult.ok.injEq] at h
          exact Or.inl ⟨Bool.eq_false_iff.mpr hseq, h.symm⟩
      | err e => rw [onOk_err] at h; simp at h
      | panic => rw [onOk_panic] at h; simp at h

/-- With all three exclusion flags off, a successful generation returns the
raw assembled candidate: exactly `Length` characters, all from the pool. -/
lemma generatePassword_ok_plain (opts : PasswordOptions) (s : EntropySource)
    (pw : List Char) (hs1 : opts.NoSimilar = false)
    (hd : opts.NoDuplicates = false) (hq : opts.NoSequential = false)
    (h : (generatePassword opts s).1 = GenResult.ok pw) :
    (pw.length : ℤ) = opts.Length ∧ ∀ c ∈ pw, c ∈ buildCharacterSet opts := by
  obtain ⟨raw, s1, hgen, hneg, hcase⟩ := generatePassword_ok_shape opts s pw h
  rcases hcase with ⟨-, hpw⟩ | ⟨hseq, -⟩
  · rw [hs1, hd] at hpw
    simp only [Bool.false_eq_true, if_false] at hpw
    obtain ⟨hlen, hmem⟩ :=
      genCharsAux_ok opts (buildCharacterSet opts) opts.Length.toNat 0 s raw s1 hgen
    subst hpw
    constructor
    · rw [hlen]
      exact Int.toNat_of_nonneg (le_of_not_lt hneg)
    · intro c hc
      rcases hmem c hc with hin | hin
      · exact hin
      · exact letters_subset opts c hin
  · rw [hq] at hseq
    exact absurd hseq (by simp)

/-- With `NoSimilar` on and `NoSequential` off, no similar character
survives to the output. -/
lemma generatePassword_ok_no_similar (opts : PasswordOptions)
    (s : EntropySource) (pw : List Char) (hs1 : opts.NoSimilar = true)
    (hq : opts.NoSequential = false)
    (h : (generatePassword opts s).1 = GenResult.ok pw) :
    ∀ c ∈ pw, c ∉ similarCharacters := by
  obtain ⟨raw, s1, hgen, hneg, hcase⟩ := generatePassword_ok_shape opts s pw h
  rcases hcase with ⟨-, hpw⟩ | ⟨hseq, -⟩
  · rw [hs1, if_pos rfl] at hpw
    intro c hc hmem
    have hcsim : c ∈ removeSimilarCharacters raw := by
      by_cases hd : opts.NoDuplicates = true
      · rw [hd, if_pos rfl] at hpw
        subst hpw
        exact removeDuplicateCharacters_subset _ c hc
      · rw [if_neg hd] at hpw
        subst hpw
        exact hc
    exact ((removeSimilarCharacters_mem raw c).mp hcsim).2 c hmem rfl
  · rw [hq] at hseq
    exact absurd hseq (by simp)

/-- With `NoDuplicates` on and `NoSequential` off, the output has no
repeated character. -/
lemma generatePassword_ok_nodup (opts : PasswordOptions) (s : EntropySource)
    (pw : List Char) (hd : opts.NoDuplicates = true)
    (hq : opts.NoSequential = false)
    (h : (generatePassword opts s).1 = GenResult.ok pw) : pw.Nodup := by
  obtain ⟨raw, s1, hgen, hneg, hcase⟩ := generatePassword_ok_shape opts s pw h
  rcases hcase with ⟨-, hpw⟩ | ⟨hseq, -⟩
  · rw [hd, if_pos rfl] at hpw
    subst hpw
    exact removeDuplicateCharacters_nodup _
  · rw [hq] at hseq
    exact absurd hseq (by simp)

/-! ### When the invalid-configuration error occurs -/

/-- With an empty pool, `generatePassword` fails immediately with the
invalid-configuration error and consumes no entropy. -/
lemma generatePassword_invalid_of_nil (opts : PasswordOptions)
    (s : EntropySource) (hchars : buildCharacterSet opts = []) :
    generatePassword opts s = (GenResult.err invalidConfigMessage, s) := by
  simp only [generatePassword]
  rw [if_pos hchars]

/-- `generatePassword` produces the invalid-configuration error exactly
when the pool is empty; no other code path can produce that message. -/
lemma generatePassword_err_invalid_iff (opts : PasswordOptions)
    (s : EntropySource) :
    (generatePassword opts s).1 = GenResult.err invalidConfigMessage ↔
      buildCharacterSet opts = [] := by
  constructor
  · intro h
    by_contra hchars
    simp only [generatePassword] at h
    rw [if_neg hchars] at h
    by_cases hneg : opts.Length < 0
    · rw [if_pos hneg] at h
      simp at h
    · rw [if_neg hneg] at h
      rcases hgen : genCharsAux opts (buildCharacterSet opts) opts.Length.toNat 0 s
        with ⟨r1, s1⟩
      rw [hgen] at h
      cases r1 with
      | ok raw =>
        simp only [onOk_ok] at h
        by_cases hseq : opts.NoSequential = true
        · rw [if_pos hseq, removeSequentialCharacters] at h
          exact removeSeqAux_ne_err _ _ _ _ _ h
        · rw [if_neg hseq] at h
          exact GenResult.noConfusion h
      | err e =>
        rw [onOk_err] at h
        simp only [GenResult.err.injEq] at h
        have hmsg : e = entropyFailureMessage :=
          genCharsAux_err opts (buildCharacterSet opts) opts.Length.toNat 0 s e s1 hgen
        rw [hmsg] at h
        exact absurd h (by decide)
      | panic =>
        rw [onOk_panic] at h
        simp at h
  · intro hchars
    rw [generatePassword_invalid_of_nil opts s hchars]

/-- The batch produces the invalid-configuration error exactly when the
pool is empty and at least one password was requested. -/
lemma generatePasswords_err_invalid_iff (opts : PasswordOptions)
    (s : EntropySource) :
    (GeneratePasswords opts s).1 = GenResult.err invalidConfigMessage ↔
      (buildCharacterSet opts = [] ∧ 1 ≤ opts.Quantity) := by
  rw [GeneratePasswords]
  constructor
  · intro h
    rcases hq : opts.Quantity.toNat with _ | q
    · rw [hq, genManyAux] at h
      simp at h
    · rw [hq] at h
      rcases hm : genManyAux opts (q + 1) s with ⟨r, s2⟩
      rw [hm] at h
      cases r with
      | ok pws => simp at h
      | err e =>
        simp only [GenResult.err.injEq] at h
        rw [h] at hm
        obtain ⟨t, t', ht⟩ := genManyAux_err opts (q + 1) s invalidConfigMessage s2 hm
        have hinv : (generatePassword opts t).1 = GenResult.err invalidConfigMessage := by
          rw [ht]
        exact ⟨(generatePassword_err_invalid_iff opts t).mp hinv, by omega⟩
      | panic => simp at h
  · rintro ⟨hchars, hqty⟩
    have h1 : opts.Quantity.toNat = (opts.Quantity.toNat - 1) + 1 := by omega
    rw [h1, genManyAux, generatePassword_invalid_of_nil opts s hchars, onOk_err]

/-! ### Concrete scenarios used by the individual claims -/

/-- Scenario for C1: lowercase only, `Length` 3, `Quantity` 1,
`NoSequential` on (fields in declaration order: MinLength, MaxLength,
DefaultLength, Quantity, IncludeSymbols, IncludeNumbers, IncludeUpper,
IncludeLower, BeginWithLetter, NoSimilar, NoDuplicates, NoSequential,
Length). -/
def c1opts : PasswordOptions :=
  PasswordOptions.mk 0 0 0 1 false false false true false false false true 3

/-- Draws for C1: indices 0,1,2 into the lowercase pool give `abc`; the
repair draws 26,27,28 index `a`, `b`, `c` in the alphanumeric alphabet. -/
def c1src : EntropySource := fun i => some ([0, 1, 2, 26, 27, 28].getD i 0)

/-- C1: the spec claims that with `noSequential=true` no output triple is
an ascending or descending run and that replacement runs are rejected
against both neighbors.  The code's neighbor test passes the sentinel `' '`
as third argument, so it never rejects an alphanumeric draw, and the three
replacement characters are never checked against each other: the candidate
`abc` is detected as sequential and replaced by the fresh draws `abc`,
leaving an ascending run in the output.  This contradicts the repository's
own test, which asserts via `isSequential` that no output triple is
sequential. -/
theorem c1_nosequential_violated :
    (generatePassword c1opts c1src).1 = GenResult.ok (['a', 'b', 'c']) ∧
      c1opts.NoSequential = true ∧ isSequential 'a' 'b' 'c' = true := by
  decide

/-- Scenario for C2 counterexample: lowercase only, `Length` 3,
`NoSimilar` and `NoSequential` both on. -/
def c2opts : PasswordOptions :=
  PasswordOptions.mk 0 0 0 1 false false false true false true false true 3

/-- Draws for C2: `abc` assembled, then the repair stage draws index 8
three times, which is `I` — a similar character. -/
def c2src : EntropySource := fun i => some ([0, 1, 2, 8, 8, 8].getD i 0)

/-- C2 counterexample: with `NoSimilar` and `NoSequential` both enabled the
sequential-repair stage draws from the full alphanumeric alphabet, which
contains the similar characters, so `I` reaches the output. -/
theorem c2_counterexample :
    (generatePassword c2opts c2src).1 = GenResult.ok (['I', 'I', 'I']) ∧
      c2opts.NoSimilar = true ∧ 'I' ∈ (['I', 'I', 'I'] : List Char) ∧
      'I' ∈ similarCharacters := by
  decide

/-- C2 as amended: for every request with `NoSimilar` on and
`NoSequential` off, no character of any returned password is similar
(the similar-removal stage runs after assembly and nothing re-introduces
similar characters when the repair stage is disabled). -/
theorem c2_amended (opts : PasswordOptions) (s : EntropySource)
    (pws : List (List Char)) (hs1 : opts.NoSimilar = true)
    (hq : opts.NoSequential = false)
    (h : (GeneratePasswords opts s).1 = GenResult.ok pws) :
    ∀ pw ∈ pws, ∀ c ∈ pw, c ∉ similarCharacters := by
  rcases hm : GeneratePasswords opts s with ⟨r, s2⟩
  rw [hm] at h
  simp only at h
  rw [h] at hm
  rw [GeneratePasswords] at hm
  obtain ⟨-, hmem⟩ := genManyAux_ok opts opts.Quantity.toNat s pws s2 hm
  intro pw hpw
  obtain ⟨t, t', ht⟩ := hmem pw hpw
  exact generatePassword_ok_no_similar opts t pw hs1 hq (by rw [ht])

/-- Witness options for C2: lowercase only, `Length` 1, `NoSimilar` on,
`NoSequential` off. -/
def c2wopts : PasswordOptions :=
  PasswordOptions.mk 0 0 0 1 false false false true false true false false 1

def c2wsrc : EntropySource := fun _ => some 0

/-- C2 witness: the amended statement at a concrete run producing `a`,
instantiated at that output character. -/
theorem c2_witness : 'a' ∉ similarCharacters :=
  c2_amended c2wopts c2wsrc [[ 'a' ]] rfl rfl (by decide) [ 'a' ] (by decide)
    'a' (by decide)

/-- Scenario for C3 counterexample: lowercase only, `Length` 3,
`NoDuplicates` and `NoSequential` both on. -/
def c3opts : PasswordOptions :=
  PasswordOptions.mk 0 0 0 1 false false false true false false true true 3

/-- Draws for C3: `abc` assembled (no duplicates), then the repair stage
draws index 0 three times, producing `AAA`. -/
def c3src : EntropySource := fun i => some ([0, 1, 2, 0, 0, 0].getD i 0)

/-- C3 counterexample: with `NoDuplicates` and `NoSequential` both enabled
the repair stage re-samples without consulting the duplicate filter, so the
output `AAA` repeats a character. -/
theorem c3_counterexample :
    (generatePassword c3opts c3src).1 = GenResult.ok (['A', 'A', 'A']) ∧
      c3opts.NoDuplicates = true ∧ ¬ (['A', 'A', 'A'] : List Char).Nodup := by
  decide

/-- C3 as amended: for every request with `NoDuplicates` on and
`NoSequential` off, no character appears twice in any returned password. -/
theorem c3_amended (opts : PasswordOptions) (s : EntropySource)
    (pws : List (List Char)) (hd : opts.NoDuplicates = true)
    (hq : opts.NoSequential = false)
    (h : (GeneratePasswords opts s).1 = GenResult.ok pws) :
    ∀ pw ∈ pws, pw.Nodup := by
  rcases hm : GeneratePasswords opts s with ⟨r, s2⟩
  rw [hm] at h
  simp only at h
  rw [h] at hm
  rw [GeneratePasswords] at hm
  obtain ⟨-, hmem⟩ := genManyAux_ok opts opts.Quantity.toNat s pws s2 hm
  intro pw hpw
  obtain ⟨t, t', ht⟩ := hmem pw hpw
  exact generatePassword_ok_nodup opts t pw hd hq (by rw [ht])

/-- Witness options for C3: lowercase only, `Length` 2, `NoDuplicates` on,
`NoSequential` off. -/
def c3wopts : PasswordOptions :=
  PasswordOptions.mk 0 0 0 1 false false false true false false true false 2

def c3wsrc : EntropySource := fun i => some ([0, 1].getD i 0)

/-- C3 witness: the amended statement at a concrete run producing `ab`,
instantiated at that output. -/
theorem c3_witness : ([ 'a', 'b' ] : List Char).Nodup :=
  c3_amended c3wopts c3wsrc [[ 'a', 'b' ]] rfl rfl (by decide) [ 'a', 'b' ]
    (by decide)

/-- Scenario for C4 counterexample: lowercase enabled, `Length` 0,
`Quantity` 1. -/
def c4opts : PasswordOptions :=
  PasswordOptions.mk 0 0 0 1 false false false true false false false false 0

def c4src : EntropySource := fun _ => some 0

/-- C4 counterexample: the claim says `Length <= 0` yields an
`InvalidConfiguration` error, but with `Length = 0` the loop simply runs
zero times and the batch returns one empty password with no error. -/
theorem c4_counterexample :
    c4opts.Length ≤ 0 ∧
      (GeneratePasswords c4opts c4src).1 =
        GenResult.ok ([[]] : List (List Char)) := by
  decide

/-- C4 as amended: the invalid-configuration error occurs for
`generatePassword` exactly when no character class is enabled (and then
before any sampling, with the entropy stream untouched), and for
`GeneratePasswords` exactly when additionally `Quantity >= 1`.  Neither
`Length <= 0`, `Quantity <= 0` nor `beginWithLetter` without a letter class
is validated. -/
theorem c4_amended (opts : PasswordOptions) (s : EntropySource) :
    ((generatePassword opts s).1 = GenResult.err invalidConfigMessage ↔
      (opts.IncludeSymbols = false ∧ opts.IncludeNumbers = false ∧
       opts.IncludeUpper = false ∧ opts.IncludeLower = false)) ∧
    ((opts.IncludeSymbols = false ∧ opts.IncludeNumbers = false ∧
      opts.IncludeUpper = false ∧ opts.IncludeLower = false) →
      generatePassword opts s = (GenResult.err invalidConfigMessage, s)) ∧
    ((GeneratePasswords opts s).1 = GenResult.err invalidConfigMessage ↔
      ((opts.IncludeSymbols = false ∧ opts.IncludeNumbers = false ∧
        opts.IncludeUpper = false ∧ opts.IncludeLower = false) ∧
        1 ≤ opts.Quantity)) := by
  refine ⟨?_, ?_, ?_⟩
  · rw [generatePassword_err_invalid_iff opts s]
    exact buildCharacterSet_eq_nil_iff opts
  · intro hflags
    exact generatePassword_invalid_of_nil opts s
      ((buildCharacterSet_eq_nil_iff opts).mpr hflags)
  · rw [generatePasswords_err_invalid_iff opts s,
        buildCharacterSet_eq_nil_iff opts]

/-- Scenario for C5: lowercase only, `Length` 3, `NoSequential` on; the
first three draws succeed with `abc`, the fourth (the first repair draw)
fails. -/
def c5opts : PasswordOptions :=
  PasswordOptions.mk 0 0 0 1 false false false true false false false true 3

def c5src : EntropySource := fun i => [some 0, some 1, some 2].getD i none

/-- C5: the spec claims every stage propagates an entropy failure upward as
an `EntropySourceFailure`-kind error.  But `getRandomRune` discards the
error of `rand.Int` with a blank identifier and dereferences the nil
result, so a failure during the sequential-repair stage surfaces as a
runtime panic, not as the entropy-failure error. -/
theorem c5_entropy_failure_panics :
    c5src 3 = none ∧
      (generatePassword c5opts c5src).1 = GenResult.panic ∧
      (generatePassword c5opts c5src).1 ≠ GenResult.err entropyFailureMessage := by
  decide

/-- C6: with no exclusion flags, every returned password of a successful
batch has exactly `Length` characters, all members of the pool built from
the enabled classes. -/
theorem c6_length_and_class_membership (opts : PasswordOptions)
    (s : EntropySource) (pws : List (List Char))
    (hs1 : opts.NoSimilar = false) (hd : opts.NoDuplicates = false)
    (hq : opts.NoSequential = false)
    (h : (GeneratePasswords opts s).1 = GenResult.ok pws) :
    ∀ pw ∈ pws,
      (pw.length : ℤ) = opts.Length ∧ ∀ c ∈ pw, c ∈ buildCharacterSet opts := by
  rcases hm : GeneratePasswords opts s with ⟨r, s2⟩
  rw [hm] at h
  simp only at h
  rw [h] at hm
  rw [GeneratePasswords] at hm
  obtain ⟨-, hmem⟩ := genManyAux_ok opts opts.Quantity.toNat s pws s2 hm
  intro pw hpw
  obtain ⟨t, t', ht⟩ := hmem pw hpw
  exact generatePassword_ok_plain opts t pw hs1 hd hq (by rw [ht])

/-- Witness options for C6: all four classes, `Length` 2, `Quantity` 1. -/
def c6wopts : PasswordOptions :=
  PasswordOptions.mk 0 0 0 1 true true true true false false false false 2

def c6wsrc : EntropySource := fun _ => some 0

/-- C6 witness: a concrete batch producing one password of two symbols,
instantiated at that password. -/
theorem c6_witness :
    ((([ '!', '!' ] : List Char).length : ℤ) = c6wopts.Length ∧
      ∀ c ∈ ([ '!', '!' ] : List Char), c ∈ buildCharacterSet c6wopts) :=
  c6_length_and_class_membership c6wopts c6wsrc [[ '!', '!' ]] rfl rfl rfl
    (by decide) [ '!', '!' ] (by decide)

/-- C7: a successful batch returns exactly `Quantity` strings, and a failed
batch surfaces the error of some single-password generation, with no
partial list of results (the error constructor carries no list). -/
theorem c7_batch_count_and_abort (opts : PasswordOptions) (s : EntropySource) :
    (∀ pws, (GeneratePasswords opts s).1 = GenResult.ok pws →
      pws.length = opts.Quantity.toNat) ∧
    (∀ e, (GeneratePasswords opts s).1 = GenResult.err e →
      ∃ t, (generatePassword opts t).1 = GenResult.err e) := by
  constructor
  · intro pws h
    rcases hm : GeneratePasswords opts s with ⟨r, s2⟩
    rw [hm] at h
    simp only at h
    rw [h] at hm
    rw [GeneratePasswords] at hm
    exact (genManyAux_ok opts opts.Quantity.toNat s pws s2 hm).1
  · intro e h
    rcases hm : GeneratePasswords opts s with ⟨r, s2⟩
    rw [hm] at h
    simp only at h
    rw [h] at hm
    rw [GeneratePasswords] at hm
    obtain ⟨t, t', ht⟩ := genManyAux_err opts opts.Quantity.toNat s e s2 hm
    exact ⟨t, by rw [ht]⟩

/-- Witness options for C7: lowercase only, `Length` 1, `Quantity` 2. -/
def c7wopts : PasswordOptions :=
  PasswordOptions.mk 0 0 0 2 false false false true false false false false 1

def c7wsrc : EntropySource := fun _ => some 0

/-- Witness options for the failing half of C7: `Quantity` 1 and an
entropy source that fails on the first draw. -/
def c7eopts : PasswordOptions :=
  PasswordOptions.mk 0 0 0 1 false false false true false false false false 1

def c7esrc : EntropySource := fun _ => none

/-- C7 witness: a successful batch of two and an aborted batch whose error
is a single-generation error. -/
theorem c7_witness :
    ([[ 'a' ], [ 'a' ]] : List (List Char)).length = c7wopts.Quantity.toNat ∧
      ∃ t, (generatePassword c7eopts t).1 = GenResult.err entropyFailureMessage :=
  ⟨(c7_batch_count_and_abort c7wopts c7wsrc).1 [[ 'a' ], [ 'a' ]] (by decide),
   (c7_batch_count_and_abort c7eopts c7esrc).2 entropyFailureMessage (by decide)⟩

/-- Modelled from the spec (section 4.1): the pool is the concatenation of
the enabled class substrings in the fixed order symbols, numbers,
uppercase, lowercase, with the literal class alphabets. -/
def buildCharacterSetSpec (opts : PasswordOptions) : List Char :=
  (if opts.IncludeSymbols then ("!@#$%^&*()-_=+[]\x7b\x7d|;:,.<>/?").toList else []) ++
  (if opts.IncludeNumbers then ("0123456789").toList else []) ++
  (if opts.IncludeUpper then ("ABCDEFGHIJKLMNOPQRSTUVWXYZ").toList else []) ++
  (if opts.IncludeLower then ("abcdefghijklmnopqrstuvwxyz").toList else [])

/-- C8: the implemented pool builder agrees byte-for-byte with the spec's
fixed-order concatenation, and its result is empty exactly when all four
inclusion flags are false. -/
theorem c8_pool_concatenation (opts : PasswordOptions) :
    buildCharacterSet opts = buildCharacterSetSpec opts ∧
      (buildCharacterSet opts = [] ↔
        opts.IncludeSymbols = false ∧ opts.IncludeNumbers = false ∧
        opts.IncludeUpper = false ∧ opts.IncludeLower = false) :=
  ⟨rfl, buildCharacterSet_eq_nil_iff opts⟩

/-- C9: whenever the sequential-removal stage returns a string, that string
has exactly the length of its input — every detected run of three is
replaced by exactly three characters. -/
theorem c9_sequential_removal_preserves_length (pw : List Char)
    (s : EntropySource) (out : List Char)
    (h : (removeSequentialCharacters pw s).1 = GenResult.ok out) :
    out.length = pw.length := by
  rcases hm : removeSequentialCharacters pw s with ⟨r, s2⟩
  rw [hm] at h
  simp only at h
  rw [h] at hm
  rw [removeSequentialCharacters] at hm
  exact removeSeqAux_ok_length pw pw 0 s out s2 hm

def c9src : EntropySource := fun _ => some 0

/-- C9 witness: repairing `abc` yields the 3-character string `AAA`. -/
theorem c9_witness :
    (['A', 'A', 'A'] : List Char).length = (['a', 'b', 'c'] : List Char).length :=
  c9_sequential_removal_preserves_length ['a', 'b', 'c'] c9src ['A', 'A', 'A']
    (by decide)

/-- C10: for every password, run index, fuel of at least 3 and entropy
stream whose next three draws succeed, the replacement loop terminates
after exactly three draws with a 3-character replacement: the
neighbor-rejection test is false on every character of the alphabet it
draws from (its third argument is the fixed sentinel `' '`), so no draw is
ever discarded and the bounded model with fuel 3 computes the loop
exactly. -/
theorem c10_repair_terminates (runes : List Char) (index : ℕ)
    (s : EntropySource) (fuel : ℕ) (hfuel : 3 ≤ fuel)
    (hs : ∀ i, i < 3 → (s i).isSome = true) :
    (∀ c ∈ charSets, replacementRejected runes index c = false) ∧
    ∃ cs s', gnscAux runes index fuel [] s = (GenResult.ok cs, s') ∧
      gnscAux runes index fuel [] s = generateNonSequentialChars runes index s ∧
      cs.length = 3 := by
  refine ⟨fun c hc => replacementRejected_false runes index c hc, ?_⟩
  obtain ⟨cs, s', hok, hlen⟩ :=
    gnscAux_ok_of_draws runes index fuel [] s (by simpa using hfuel) (by simp)
      (by simpa using hs)
  exact ⟨cs, s', hok,
    gnscAux_eq_generateNonSequentialChars runes index s fuel hfuel, hlen⟩

def c10src : EntropySource := fun _ => some 0

/-- C10 witness: the terminating loop at a concrete input. -/
theorem c10_witness :
    (∀ c ∈ charSets, replacementRejected ['a', 'b', 'c'] 0 c = false) ∧
    ∃ cs s', gnscAux ['a', 'b', 'c'] 0 3 [] c10src = (GenResult.ok cs, s') ∧
      gnscAux ['a', 'b', 'c'] 0 3 [] c10src =
        generateNonSequentialChars ['a', 'b', 'c'] 0 c10src ∧
      cs.length = 3 :=
  c10_repair_terminates ['a', 'b', 'c'] 0 c10src 3 (by decide)
    (fun i _ => rfl)

end PasswordGen
